import Mathlib

/-!
Verification of the Email-Automation repository (src/script.py) against its
natural-language specification.

The single source file defines a class CIDEmailSender with three methods —
create_email_message, send_email, send_bulk_emails — plus environment-based
construction.  The development below is a shallow embedding of that code:
file I/O is modelled by an explicit file-system valuation, the SMTP transport
by an explicit per-session outcome chosen by the environment, and Python
exceptions by Except values.  Python str.replace is modelled character-list
first (fuel-structured so that all definitions reduce in the kernel).
-/

namespace EmailAutomation

/-! ## Data model (section 3 of the spec) -/

/-- A recipient dictionary with required keys name, role, email
(src/script.py uses recipient["name"], recipient["role"], recipient["email"]). -/
structure Recipient where
  name : String
  role : String
  email : String
deriving DecidableEq

/-- Result of opening/reading one file: success, FileNotFoundError, or any
other OSError-like fault (e.g. a permission error on an unreadable file). -/
inductive FileResult (α : Type) where
  | ok (val : α)
  | notFound
  | ioError
deriving DecidableEq

/-- The file system as seen by the script: text reads (the HTML template,
opened with mode "r") and binary reads (image files, opened with mode "rb"). -/
structure FS where
  readText : String → FileResult String
  readBin : String → FileResult (List Nat)

/-! ## Python str.replace

`html_content.replace(pat, repl)` replaces every occurrence of `pat`,
scanning left to right, non-overlapping.  The worker is structured on a fuel
argument (initialised to the length of the subject string, which always
suffices) so that concrete instances reduce inside the kernel. -/

/-- Fuel-structured worker for str.replace with a non-empty pattern
p :: ps.  With fuel at least the length of the subject the fuel never runs
out (see replaceFuel_eq_of_le). -/
def replaceFuel (p : Char) (ps repl : List Char) : Nat → List Char → List Char
  | 0, s => s
  | _ + 1, [] => []
  | fuel + 1, c :: rest =>
    if (p :: ps).isPrefixOf (c :: rest) then
      repl ++ replaceFuel p ps repl fuel (List.drop ps.length rest)
    else
      c :: replaceFuel p ps repl fuel rest

/-- Replace every left-to-right non-overlapping occurrence of p :: ps by
repl in s. -/
def replaceL (p : Char) (ps repl s : List Char) : List Char :=
  replaceFuel p ps repl s.length s

/-- Model of Python str.replace on strings.  For the empty pattern Python
inserts the replacement before every character and at the end; the script
only ever uses the non-empty patterns for the name and role tokens. -/
def pyReplace (s pat repl : String) : String :=
  match pat.data with
  | [] => ⟨repl.data ++ s.data.foldr (fun c acc => c :: (repl.data ++ acc)) []⟩
  | p :: ps => ⟨replaceL p ps repl.data s.data⟩

theorem replaceFuel_nil (p : Char) (ps repl : List Char) :
    ∀ fuel, replaceFuel p ps repl fuel [] = [] := by
  intro fuel
  cases fuel <;> rfl

theorem replaceFuel_eq_of_le (p : Char) (ps repl : List Char) :
    ∀ f₁, ∀ f₂, ∀ s : List Char, s.length ≤ f₁ → s.length ≤ f₂ →
      replaceFuel p ps repl f₁ s = replaceFuel p ps repl f₂ s := by
  intro f₁
  induction f₁ with
  | zero =>
    intro f₂ s hs₁ _
    have hnil : s = [] := List.eq_nil_of_length_eq_zero (Nat.le_zero.mp hs₁)
    subst hnil
    rw [replaceFuel_nil, replaceFuel_nil]
  | succ g ih =>
    intro f₂ s hs₁ hs₂
    cases s with
    | nil => rw [replaceFuel_nil, replaceFuel_nil]
    | cons c rest =>
      cases f₂ with
      | zero => simp at hs₂
      | succ g₂ =>
        show (if (p :: ps).isPrefixOf (c :: rest) then
                repl ++ replaceFuel p ps repl g (List.drop ps.length rest)
              else c :: replaceFuel p ps repl g rest) =
             (if (p :: ps).isPrefixOf (c :: rest) then
                repl ++ replaceFuel p ps repl g₂ (List.drop ps.length rest)
              else c :: replaceFuel p ps repl g₂ rest)
        have hrest₁ : rest.length ≤ g := by simp at hs₁; omega
        have hrest₂ : rest.length ≤ g₂ := by simp at hs₂; omega
        have hdrop₁ : (List.drop ps.length rest).length ≤ g := by
          have := List.length_drop ps.length rest
          omega
        have hdrop₂ : (List.drop ps.length rest).length ≤ g₂ := by
          have := List.length_drop ps.length rest
          omega
        by_cases h : (p :: ps).isPrefixOf (c :: rest)
        · rw [if_pos h, if_pos h, ih g₂ (List.drop ps.length rest) hdrop₁ hdrop₂]
        · rw [if_neg h, if_neg h, ih g₂ rest hrest₁ hrest₂]

theorem replaceL_nil (p : Char) (ps repl : List Char) : replaceL p ps repl [] = [] := rfl

theorem replaceL_cons (p : Char) (ps repl : List Char) (c : Char) (rest : List Char) :
    replaceL p ps repl (c :: rest) =
      if (p :: ps).isPrefixOf (c :: rest) then
        repl ++ replaceL p ps repl (List.drop ps.length rest)
      else
        c :: replaceL p ps repl rest := by
  show (if (p :: ps).isPrefixOf (c :: rest) then
          repl ++ replaceFuel p ps repl rest.length (List.drop ps.length rest)
        else c :: replaceFuel p ps repl rest.length rest) = _
  by_cases h : (p :: ps).isPrefixOf (c :: rest)
  · rw [if_pos h, if_pos h]
    rw [replaceFuel_eq_of_le p ps repl rest.length (List.drop ps.length rest).length
      (List.drop ps.length rest)
      (by have := List.length_drop ps.length rest; omega) le_rfl]
    rfl
  · rw [if_neg h, if_neg h]
    rfl

theorem replaceL_cons_neg (p : Char) (ps repl : List Char) (c : Char) (rest : List Char)
    (h : (p :: ps).isPrefixOf (c :: rest) = false) :
    replaceL p ps repl (c :: rest) = c :: replaceL p ps repl rest := by
  rw [replaceL_cons]
  simp [h]

theorem replaceL_cons_pos (p : Char) (ps repl : List Char) (c : Char) (rest : List Char)
    (h : (p :: ps).isPrefixOf (c :: rest) = true) :
    replaceL p ps repl (c :: rest) = repl ++ replaceL p ps repl (List.drop ps.length rest) := by
  rw [replaceL_cons]
  simp [h]

/-- Executable substring test (does pat occur anywhere in the subject?). -/
def hasSubstr (pat : List Char) : List Char → Bool
  | [] => pat.isEmpty
  | c :: rest => pat.isPrefixOf (c :: rest) || hasSubstr pat rest

theorem replaceL_of_no_occurrence (p : Char) (ps repl : List Char) :
    ∀ s : List Char, hasSubstr (p :: ps) s = false → replaceL p ps repl s = s := by
  intro s
  induction s with
  | nil => intro _; exact replaceL_nil p ps repl
  | cons c rest ih =>
    intro h
    have h' : (p :: ps).isPrefixOf (c :: rest) = false ∧ hasSubstr (p :: ps) rest = false := by
      simpa [hasSubstr] using h
    rw [replaceL_cons_neg p ps repl c rest h'.1, ih h'.2]

/-! ## MIME message construction (create_email_message, src/script.py lines 37-80)

The method sets the From / To / Subject headers, then inside a try block
reads the template, substitutes the two placeholder tokens, attaches the
HTML part, and attaches one MIMEImage per entry of the images dict with a
Content-ID header of the form < image_id >.  The except clauses catch
FileNotFoundError (logging "Template file not found: path" and re-raising)
and any other exception (logging "Error creating email message: e" and
re-raising).  Note that the FileNotFoundError clause also catches a
FileNotFoundError raised while opening an IMAGE file, since the whole body
sits in one try block. -/

/-- A Python exception escaping create_email_message: either a
FileNotFoundError (carrying the offending path) or any other I/O fault. -/
inductive PyExc where
  | fileNotFound (path : String)
  | ioError (path : String)
deriving DecidableEq

/-- What create_email_message signals on failure: the re-raised exception
together with the error line written by the except clause that caught it. -/
structure BuildFailure where
  exc : PyExc
  log : String
deriving DecidableEq

/-- One attached MIMEImage part.  contentIdHeaderValue is the exact value
passed to add_header("Content-ID", ...), namely "<" ++ image_id ++ ">". -/
structure ImagePart where
  contentIdHeaderValue : String
  bytes : List Nat
deriving DecidableEq

/-- The content identifier carried by the Content-ID header value, i.e. the
token between the angle brackets (the id referenced as cid:id from HTML). -/
def contentIdentifier (part : ImagePart) : String :=
  ⟨(part.contentIdHeaderValue.data.drop 1).dropLast⟩

/-- The built MIMEMultipart("related") message: three headers, the HTML
body part, and the attached image parts in dict-iteration order. -/
structure EmailMessage where
  fromAddr : String
  toAddr : String
  subject : String
  html : String
  imageParts : List ImagePart
deriving DecidableEq

/-- open(path, "r") + read: returns the text or raises. -/
def readTextFile (fs : FS) (path : String) : Except PyExc String :=
  match fs.readText path with
  | .ok content => .ok content
  | .notFound => .error (.fileNotFound path)
  | .ioError => .error (.ioError path)

/-- open(path, "rb") + read: returns the bytes or raises. -/
def readBinFile (fs : FS) (path : String) : Except PyExc (List Nat) :=
  match fs.readBin path with
  | .ok content => .ok content
  | .notFound => .error (.fileNotFound path)
  | .ioError => .error (.ioError path)

/-- The for-loop over images.items(): read each image file and build its
MIMEImage part with Content-ID "<" ++ image_id ++ ">"; the first read that
raises aborts the loop with that exception. -/
def attachImages (fs : FS) : List (String × String) → Except PyExc (List ImagePart)
  | [] => .ok []
  | (imageId, imagePath) :: rest =>
    match readBinFile fs imagePath with
    | .error e => .error e
    | .ok bytes =>
      match attachImages fs rest with
      | .error e => .error e
      | .ok parts =>
        .ok ({ contentIdHeaderValue := "<" ++ imageId ++ ">", bytes := bytes } :: parts)

/-- create_email_message (src/script.py lines 37-80). -/
def create_email_message (senderEmail : String) (fs : FS) (recipient : Recipient)
    (templatePath : String) (images : List (String × String)) :
    Except BuildFailure EmailMessage :=
  -- headers are set before the try block
  let subject := "Welcome " ++ recipient.name ++ " to Tinkering Lab!"
  -- body of the try block
  let attempt : Except PyExc EmailMessage :=
    match readTextFile fs templatePath with
    | .error e => .error e
    | .ok htmlContent =>
      let personalized :=
        pyReplace (pyReplace htmlContent "\x7b\x7bname\x7d\x7d" recipient.name)
          "\x7b\x7brole\x7d\x7d" recipient.role
      match attachImages fs images with
      | .error e => .error e
      | .ok parts =>
        .ok { fromAddr := senderEmail, toAddr := recipient.email,
              subject := subject, html := personalized, imageParts := parts }
  -- the two except clauses: dispatch on the exception CLASS, not on which
  -- file operation raised it
  match attempt with
  | .ok msg => .ok msg
  | .error (.fileNotFound p) =>
    .error { exc := .fileNotFound p, log := "Template file not found: " ++ templatePath }
  | .error (.ioError p) =>
    .error { exc := .ioError p, log := "Error creating email message: " ++ p }

/-! ## SMTP transport and send_email (src/script.py lines 82-107)

The with-statement opens a connection (smtplib.SMTP connects in its
constructor), negotiates STARTTLS, logs in and sends; on leaving the block
— normally or through an exception — the connection is closed.  The
environment chooses each session's outcome.  The event trace records the
connection lifecycle so that resource-safety claims are statable. -/

/-- The environment-chosen outcome of one SMTP session attempt. -/
inductive SmtpOutcome where
  | ok
  | connectFail
  | starttlsFail
  | loginFail
  | sendFail
deriving DecidableEq

/-- Connection lifecycle events. -/
inductive SmtpEvent where
  | opened
  | closed
deriving DecidableEq

/-- One with-smtplib.SMTP block: if the constructor fails no connection was
established; in every other case the connection is opened and the
with-statement guarantees it is closed on exit, whether starttls / login /
send_message succeeded or raised. -/
def runSmtpSession (outcome : SmtpOutcome) : Bool × List SmtpEvent :=
  match outcome with
  | .connectFail => (false, [])
  | .starttlsFail => (false, [.opened, .closed])
  | .loginFail => (false, [.opened, .closed])
  | .sendFail => (false, [.opened, .closed])
  | .ok => (true, [.opened, .closed])

/-- send_email (src/script.py lines 82-107): build the message, run one
SMTP session, return True on success; every exception from build or
transport is caught by the except clause and turned into False.  The
second component is the connection-event trace (ghost instrumentation). -/
def send_email (senderEmail : String) (fs : FS) (transport : SmtpOutcome)
    (recipient : Recipient) (templatePath : String)
    (images : List (String × String)) : Bool × List SmtpEvent :=
  match create_email_message senderEmail fs recipient templatePath images with
  | .error _ => (false, [])
  | .ok _ => runSmtpSession transport

/-! ## send_bulk_emails (src/script.py lines 109-132) -/

/-- The results dict: ordered lists of email addresses. -/
structure SendResults where
  success : List String
  failed : List String
deriving DecidableEq

/-- The for-loop of send_bulk_emails.  net i is the environment-chosen
transport outcome for the i-th recipient's session; the Nat component
counts the send_email calls performed (ghost instrumentation). -/
def send_bulk_go (senderEmail : String) (fs : FS) (net : Nat → SmtpOutcome)
    (templatePath : String) (images : List (String × String)) :
    Nat → List Recipient → SendResults × Nat
  | _, [] => ({ success := [], failed := [] }, 0)
  | i, recipient :: rest =>
    let sent := (send_email senderEmail fs (net i) recipient templatePath images).1
    let next := send_bulk_go senderEmail fs net templatePath images (i + 1) rest
    if sent then
      ({ success := recipient.email :: next.1.success, failed := next.1.failed }, next.2 + 1)
    else
      ({ success := next.1.success, failed := recipient.email :: next.1.failed }, next.2 + 1)

/-- send_bulk_emails (src/script.py lines 109-132). -/
def send_bulk_emails (senderEmail : String) (fs : FS) (net : Nat → SmtpOutcome)
    (recipients : List Recipient) (templatePath : String)
    (images : List (String × String)) : SendResults × Nat :=
  send_bulk_go senderEmail fs net templatePath images 0 recipients

/-! ## Constructor (CIDEmailSender.__init__, src/script.py lines 20-35)

Reads SMTP_SERVER (default "smtp.gmail.com"), SMTP_PORT (default "587",
converted with int()), EMAIL_SENDER and EMAIL_PASSWORD from the
environment (load_dotenv having already merged the .env file), then raises
ValueError("Missing required environment variables: EMAIL_SENDER and
EMAIL_PASSWORD") unless all([sender, password]) — Python truthiness, so an
unset variable (None) and an empty string both fail the check. -/

/-- The process environment after load_dotenv: each variable is either
unset (none) or set to a string value. -/
structure Env where
  smtpServer : Option String
  smtpPort : Option String
  emailSender : Option String
  emailPassword : Option String

/-- Python truthiness of an os.getenv result: None and "" are falsy. -/
def truthy : Option String → Bool
  | none => false
  | some s => !(s == "")

/-- Python str.strip() for the whitespace int() tolerates. -/
def pyStrip (s : List Char) : List Char :=
  ((s.dropWhile Char.isWhitespace).reverse.dropWhile Char.isWhitespace).reverse

/-- Decimal value of a digit list. -/
def digitsToNat : List Char → Nat :=
  List.foldl (fun acc c => acc * 10 + (c.toNat - 48)) 0

/-- Model of Python int(s): strip whitespace, allow one sign, then decimal
digits; anything else raises ValueError (none).  (Underscore digit grouping
accepted by CPython is not modelled; the script only ever converts the
SMTP_PORT value, "587" by default.) -/
def pyInt (s : String) : Option Int :=
  match pyStrip s.data with
  | '-' :: ds =>
    if ds.isEmpty then none
    else if ds.all Char.isDigit then some (-(digitsToNat ds : Int)) else none
  | '+' :: ds =>
    if ds.isEmpty then none
    else if ds.all Char.isDigit then some (digitsToNat ds : Int) else none
  | ds =>
    if ds.isEmpty then none
    else if ds.all Char.isDigit then some (digitsToNat ds : Int) else none

/-- The transport configuration held by a successfully constructed sender. -/
structure MailerConfig where
  smtpServer : String
  smtpPort : Int
  senderEmail : String
  senderPassword : String
deriving DecidableEq

/-- How construction can fail: int(SMTP_PORT) raising ValueError, or the
explicit ValueError for missing/empty credentials. -/
inductive InitError where
  | invalidPort (raw : String)
  | missingEnvVars
deriving DecidableEq

/-- CIDEmailSender.__init__ (src/script.py lines 20-35).  Performs no
network activity: it only reads the environment and validates. -/
def CIDEmailSender_mk (env : Env) : Except InitError MailerConfig :=
  let smtpServer := env.smtpServer.getD "smtp.gmail.com"
  let portRaw := env.smtpPort.getD "587"
  match pyInt portRaw with
  | none => .error (.invalidPort portRaw)
  | some port =>
    if truthy env.emailSender && truthy env.emailPassword then
      .ok { smtpServer := smtpServer, smtpPort := port,
            senderEmail := env.emailSender.getD "",
            senderPassword := env.emailPassword.getD "" }
    else
      .error .missingEnvVars

/-! ## Placeholder tokens and the specification-side substitution

The code performs html.replace("{{name}}", name) followed by
html.replace("{{role}}", role) on the intermediate result.  The spec
describes the result as the template with every literal occurrence of
either token replaced and all other text unchanged — a single simultaneous
scan.  substSpec below is that second, spec-side definition; for the values
"Ada" / "Engineer" the two coincide (seq_eq_simul). -/

/-- Tail of the name token (the token is the 8 characters of the literal
name placeholder). -/
def nameTl : List Char := ['\x7b', 'n', 'a', 'm', 'e', '\x7d', '\x7d']

/-- Tail of the role token. -/
def roleTl : List Char := ['\x7b', 'r', 'o', 'l', 'e', '\x7d', '\x7d']

/-- The name placeholder token as a character list. -/
def nameTok : List Char := '\x7b' :: nameTl

/-- The role placeholder token as a character list. -/
def roleTok : List Char := '\x7b' :: roleTl

/-- First pass of the code: replace every name token by "Ada". -/
def adaPass (s : List Char) : List Char := replaceL '\x7b' nameTl "Ada".data s

/-- Second pass of the code: replace every role token by "Engineer". -/
def engineerPass (s : List Char) : List Char := replaceL '\x7b' roleTl "Engineer".data s

/-- Spec-side worker: one left-to-right scan replacing each literal
occurrence of the name token by nameV and of the role token by roleV,
copying every other character unchanged (fuel-structured). -/
def substFuel (nameV roleV : List Char) : Nat → List Char → List Char
  | 0, s => s
  | _ + 1, [] => []
  | fuel + 1, c :: rest =>
    if nameTok.isPrefixOf (c :: rest) then
      nameV ++ substFuel nameV roleV fuel (List.drop 7 rest)
    else if roleTok.isPrefixOf (c :: rest) then
      roleV ++ substFuel nameV roleV fuel (List.drop 7 rest)
    else
      c :: substFuel nameV roleV fuel rest

/-- Spec-side simultaneous substitution on character lists. -/
def substBothL (nameV roleV s : List Char) : List Char := substFuel nameV roleV s.length s

/-- Spec-side simultaneous substitution on strings ("every literal
occurrence of each placeholder replaced by the corresponding value, all
other text unchanged"). -/
def substSpec (nameV roleV tpl : String) : String :=
  ⟨substBothL nameV.data roleV.data tpl.data⟩

theorem substFuel_nil (nameV roleV : List Char) :
    ∀ fuel, substFuel nameV roleV fuel [] = [] := by
  intro fuel
  cases fuel <;> rfl

theorem substFuel_eq_of_le (nameV roleV : List Char) :
    ∀ f₁, ∀ f₂, ∀ s : List Char, s.length ≤ f₁ → s.length ≤ f₂ →
      substFuel nameV roleV f₁ s = substFuel nameV roleV f₂ s := by
  intro f₁
  induction f₁ with
  | zero =>
    intro f₂ s hs₁ _
    have hnil : s = [] := List.eq_nil_of_length_eq_zero (Nat.le_zero.mp hs₁)
    subst hnil
    rw [substFuel_nil, substFuel_nil]
  | succ g ih =>
    intro f₂ s hs₁ hs₂
    cases s with
    | nil => rw [substFuel_nil, substFuel_nil]
    | cons c rest =>
      cases f₂ with
      | zero => simp at hs₂
      | succ g₂ =>
        show (if nameTok.isPrefixOf (c :: rest) then
                nameV ++ substFuel nameV roleV g (List.drop 7 rest)
              else if roleTok.isPrefixOf (c :: rest) then
                roleV ++ substFuel nameV roleV g (List.drop 7 rest)
              else c :: substFuel nameV roleV g rest) =
             (if nameTok.isPrefixOf (c :: rest) then
                nameV ++ substFuel nameV roleV g₂ (List.drop 7 rest)
              else if roleTok.isPrefixOf (c :: rest) then
                roleV ++ substFuel nameV roleV g₂ (List.drop 7 rest)
              else c :: substFuel nameV roleV g₂ rest)
        have hrest₁ : rest.length ≤ g := by simp at hs₁; omega
        have hrest₂ : rest.length ≤ g₂ := by simp at hs₂; omega
        have hdrop₁ : (List.drop 7 rest).length ≤ g := by
          have := List.length_drop 7 rest
          omega
        have hdrop₂ : (List.drop 7 rest).length ≤ g₂ := by
          have := List.length_drop 7 rest
          omega
        by_cases hn : nameTok.isPrefixOf (c :: rest)
        · rw [if_pos hn, if_pos hn, ih g₂ (List.drop 7 rest) hdrop₁ hdrop₂]
        · rw [if_neg hn, if_neg hn]
          by_cases hr : roleTok.isPrefixOf (c :: rest)
          · rw [if_pos hr, if_pos hr, ih g₂ (List.drop 7 rest) hdrop₁ hdrop₂]
          · rw [if_neg hr, if_neg hr, ih g₂ rest hrest₁ hrest₂]

theorem substBothL_cons (nameV roleV : List Char) (c : Char) (rest : List Char) :
    substBothL nameV roleV (c :: rest) =
      if nameTok.isPrefixOf (c :: rest) then
        nameV ++ substBothL nameV roleV (List.drop 7 rest)
      else if roleTok.isPrefixOf (c :: rest) then
        roleV ++ substBothL nameV roleV (List.drop 7 rest)
      else
        c :: substBothL nameV roleV rest := by
  show (if nameTok.isPrefixOf (c :: rest) then
          nameV ++ substFuel nameV roleV rest.length (List.drop 7 rest)
        else if roleTok.isPrefixOf (c :: rest) then
          roleV ++ substFuel nameV roleV rest.length (List.drop 7 rest)
        else c :: substFuel nameV roleV rest.length rest) = _
  have hfix : substFuel nameV roleV rest.length (List.drop 7 rest) =
      substBothL nameV roleV (List.drop 7 rest) :=
    substFuel_eq_of_le nameV roleV rest.length (List.drop 7 rest).length (List.drop 7 rest)
      (by have := List.length_drop 7 rest; omega) le_rfl
  rw [hfix]
  rfl

theorem substBothL_cons_neg (nameV roleV : List Char) (c : Char) (rest : List Char)
    (hn : nameTok.isPrefixOf (c :: rest) = false)
    (hr : roleTok.isPrefixOf (c :: rest) = false) :
    substBothL nameV roleV (c :: rest) = c :: substBothL nameV roleV rest := by
  rw [substBothL_cons]
  simp [hn, hr]

theorem substBothL_name_match (nameV roleV t : List Char) :
    substBothL nameV roleV (nameTok ++ t) = nameV ++ substBothL nameV roleV t := by
  have hcond : nameTok.isPrefixOf ('\x7b' :: (nameTl ++ t)) = true := by
    simp only [List.isPrefixOf_iff_prefix]
    exact ⟨t, rfl⟩
  show substBothL nameV roleV ('\x7b' :: (nameTl ++ t)) = _
  rw [substBothL_cons, if_pos hcond]
  rw [show (7 : Nat) = nameTl.length from rfl, List.drop_left]

theorem substBothL_role_match (nameV roleV t : List Char) :
    substBothL nameV roleV (roleTok ++ t) = roleV ++ substBothL nameV roleV t := by
  have hn : nameTok.isPrefixOf ('\x7b' :: (roleTl ++ t)) = false := rfl
  have hcond : roleTok.isPrefixOf ('\x7b' :: (roleTl ++ t)) = true := by
    simp only [List.isPrefixOf_iff_prefix]
    exact ⟨t, rfl⟩
  show substBothL nameV roleV ('\x7b' :: (roleTl ++ t)) = _
  rw [substBothL_cons, if_neg (by simp [hn]), if_pos hcond]
  rw [show (7 : Nat) = roleTl.length from rfl, List.drop_left]

/-! Step lemmas for the two code passes. -/

theorem adaPass_cons_neg (c : Char) (rest : List Char)
    (h : nameTok.isPrefixOf (c :: rest) = false) :
    adaPass (c :: rest) = c :: adaPass rest :=
  replaceL_cons_neg _ _ _ _ _ h

theorem engineerPass_cons_neg (c : Char) (rest : List Char)
    (h : roleTok.isPrefixOf (c :: rest) = false) :
    engineerPass (c :: rest) = c :: engineerPass rest :=
  replaceL_cons_neg _ _ _ _ _ h

theorem adaPass_name_match (t : List Char) :
    adaPass (nameTok ++ t) = "Ada".data ++ adaPass t := by
  have hcond : nameTok.isPrefixOf (nameTok ++ t) = true := by
    simp [List.isPrefixOf_iff_prefix]
  show replaceL '\x7b' nameTl "Ada".data ('\x7b' :: (nameTl ++ t)) = _
  rw [replaceL_cons_pos '\x7b' nameTl "Ada".data '\x7b' (nameTl ++ t) hcond, List.drop_left]
  rfl

theorem engineerPass_role_match (t : List Char) :
    engineerPass (roleTok ++ t) = "Engineer".data ++ engineerPass t := by
  have hcond : roleTok.isPrefixOf (roleTok ++ t) = true := by
    simp [List.isPrefixOf_iff_prefix]
  show replaceL '\x7b' roleTl "Engineer".data ('\x7b' :: (roleTl ++ t)) = _
  rw [replaceL_cons_pos '\x7b' roleTl "Engineer".data '\x7b' (roleTl ++ t) hcond, List.drop_left]
  rfl

/-- The name pass walks straight through a role token: the name token
matches at none of its eight positions. -/
theorem adaPass_roleTok_peel (t : List Char) :
    adaPass (roleTok ++ t) = roleTok ++ adaPass t := by
  have h0 : nameTok.isPrefixOf
      ('\x7b' :: '\x7b' :: 'r' :: 'o' :: 'l' :: 'e' :: '\x7d' :: '\x7d' :: t) = false := rfl
  have h1 : nameTok.isPrefixOf
      ('\x7b' :: 'r' :: 'o' :: 'l' :: 'e' :: '\x7d' :: '\x7d' :: t) = false := rfl
  have h2 : nameTok.isPrefixOf ('r' :: 'o' :: 'l' :: 'e' :: '\x7d' :: '\x7d' :: t) = false := rfl
  have h3 : nameTok.isPrefixOf ('o' :: 'l' :: 'e' :: '\x7d' :: '\x7d' :: t) = false := rfl
  have h4 : nameTok.isPrefixOf ('l' :: 'e' :: '\x7d' :: '\x7d' :: t) = false := rfl
  have h5 : nameTok.isPrefixOf ('e' :: '\x7d' :: '\x7d' :: t) = false := rfl
  have h6 : nameTok.isPrefixOf ('\x7d' :: '\x7d' :: t) = false := rfl
  have h7 : nameTok.isPrefixOf ('\x7d' :: t) = false := rfl
  show adaPass ('\x7b' :: '\x7b' :: 'r' :: 'o' :: 'l' :: 'e' :: '\x7d' :: '\x7d' :: t) = _
  rw [adaPass_cons_neg _ _ h0, adaPass_cons_neg _ _ h1, adaPass_cons_neg _ _ h2,
    adaPass_cons_neg _ _ h3, adaPass_cons_neg _ _ h4, adaPass_cons_neg _ _ h5,
    adaPass_cons_neg _ _ h6, adaPass_cons_neg _ _ h7]
  rfl

/-- The role pass walks straight through an inserted "Ada": the role token
starts with a brace, not with any character of "Ada". -/
theorem engineerPass_ada_peel (t : List Char) :
    engineerPass ('A' :: 'd' :: 'a' :: t) = 'A' :: 'd' :: 'a' :: engineerPass t := by
  have h0 : roleTok.isPrefixOf ('A' :: 'd' :: 'a' :: t) = false := rfl
  have h1 : roleTok.isPrefixOf ('d' :: 'a' :: t) = false := rfl
  have h2 : roleTok.isPrefixOf ('a' :: t) = false := rfl
  rw [engineerPass_cons_neg _ _ h0, engineerPass_cons_neg _ _ h1, engineerPass_cons_neg _ _ h2]

/-- Key structural fact: the name pass never creates a new occurrence of
(a suffix of) the role token at the head of its output.  Characters of the
inserted "Ada" cannot take part in a role-token occurrence, so such a
prefix of the output must already be a prefix of the input. -/
theorem role_suffix_prefix_of_adaPass :
    ∀ s r : List Char, r ≠ [] → r <:+ roleTok →
      r.isPrefixOf (adaPass s) = true → r.isPrefixOf s = true := by
  intro s
  induction s with
  | nil =>
    intro r hne _ h
    rw [show adaPass [] = [] from rfl] at h
    cases r with
    | nil => exact absurd rfl hne
    | cons x xs => simp [List.isPrefixOf] at h
  | cons c rest ih =>
    intro r hne hsuf h
    cases hname : nameTok.isPrefixOf (c :: rest) with
    | true =>
      have hstep : adaPass (c :: rest) = 'A' :: 'd' :: 'a' :: adaPass (List.drop 7 rest) :=
        replaceL_cons_pos '\x7b' nameTl "Ada".data c rest hname
      rw [hstep] at h
      cases r with
      | nil => exact absurd rfl hne
      | cons x xs =>
        have hx : x ∈ roleTok := hsuf.sublist.subset (List.mem_cons_self x xs)
        have hxA : x = 'A' := by
          simp only [List.isPrefixOf, Bool.and_eq_true, beq_iff_eq] at h
          exact h.1
        rw [hxA] at hx
        exact absurd hx (by decide)
    | false =>
      have hstep : adaPass (c :: rest) = c :: adaPass rest := adaPass_cons_neg c rest hname
      rw [hstep] at h
      cases r with
      | nil => exact absurd rfl hne
      | cons x xs =>
        simp only [List.isPrefixOf, Bool.and_eq_true, beq_iff_eq] at h
        cases xs with
        | nil =>
          simp [List.isPrefixOf, h.1]
        | cons y ys =>
          have hys : (y :: ys) <:+ roleTok := by
            obtain ⟨pre, hpre⟩ := hsuf
            exact ⟨pre ++ [x], by simpa [List.append_assoc] using hpre⟩
          have htail := ih (y :: ys) (by simp) hys h.2
          simp [List.isPrefixOf, Bool.and_eq_true, beq_iff_eq, h.1, htail]

/-- Corollary: if the role token is not a prefix of s, it is not a prefix
of the name-pass output either. -/
theorem roleTok_not_prefix_adaPass (s : List Char)
    (h : roleTok.isPrefixOf s = false) : roleTok.isPrefixOf (adaPass s) = false := by
  cases hb : roleTok.isPrefixOf (adaPass s) with
  | false => rfl
  | true =>
    have := role_suffix_prefix_of_adaPass s roleTok (by simp [roleTok])
      (List.suffix_refl roleTok) hb
    rw [this] at h
    exact absurd h (by simp)

/-- Sequential replacement (name pass then role pass, as the code does it)
with values "Ada" / "Engineer" equals the spec-side simultaneous scan. -/
theorem seq_eq_simul :
    ∀ s : List Char, engineerPass (adaPass s) = substBothL "Ada".data "Engineer".data s := by
  suffices H : ∀ n : Nat, ∀ s : List Char, s.length ≤ n →
      engineerPass (adaPass s) = substBothL "Ada".data "Engineer".data s by
    intro s
    exact H s.length s le_rfl
  intro n
  induction n with
  | zero =>
    intro s hs
    have hnil : s = [] := List.eq_nil_of_length_eq_zero (Nat.le_zero.mp hs)
    subst hnil
    rfl
  | succ n ih =>
    intro s hs
    cases s with
    | nil => rfl
    | cons c rest =>
      cases hname : nameTok.isPrefixOf (c :: rest) with
      | true =>
        obtain ⟨t, ht⟩ := List.isPrefixOf_iff_prefix.mp hname
        have hl := congrArg List.length ht
        simp [nameTok, nameTl, List.length_append] at hl
        simp only [List.length_cons] at hs
        have hlen : t.length ≤ n := by omega
        rw [← ht, adaPass_name_match t,
          show "Ada".data ++ adaPass t = 'A' :: 'd' :: 'a' :: adaPass t from rfl,
          engineerPass_ada_peel (adaPass t), ih t hlen, substBothL_name_match]
        rfl
      | false =>
        cases hrole : roleTok.isPrefixOf (c :: rest) with
        | true =>
          obtain ⟨t, ht⟩ := List.isPrefixOf_iff_prefix.mp hrole
          have hl := congrArg List.length ht
          simp [roleTok, roleTl, List.length_append] at hl
          simp only [List.length_cons] at hs
          have hlen : t.length ≤ n := by omega
          rw [← ht, adaPass_roleTok_peel t, engineerPass_role_match (adaPass t),
            ih t hlen, substBothL_role_match]
        | false =>
          have hstep : adaPass (c :: rest) = c :: adaPass rest := adaPass_cons_neg c rest hname
          have hnew : roleTok.isPrefixOf (c :: adaPass rest) = false := by
            have hcor := roleTok_not_prefix_adaPass (c :: rest) hrole
            rwa [hstep] at hcor
          simp only [List.length_cons] at hs
          rw [hstep, engineerPass_cons_neg c (adaPass rest) hnew,
            ih rest (by omega), substBothL_cons_neg _ _ _ _ hname hrole]

/-! ## Shape of a successful build -/

/-- When create_email_message returns a message, the template was read, all
images attached, and the message fields are exactly those the code sets. -/
theorem create_ok_elim (senderEmail : String) (fs : FS) (r : Recipient)
    (templatePath : String) (images : List (String × String)) (m : EmailMessage)
    (hm : create_email_message senderEmail fs r templatePath images = .ok m) :
    ∃ T parts, fs.readText templatePath = .ok T ∧ attachImages fs images = .ok parts ∧
      m.fromAddr = senderEmail ∧ m.toAddr = r.email ∧
      m.subject = "Welcome " ++ r.name ++ " to Tinkering Lab!" ∧
      m.html = pyReplace (pyReplace T "\x7b\x7bname\x7d\x7d" r.name)
        "\x7b\x7brole\x7d\x7d" r.role ∧
      m.imageParts = parts := by
  unfold create_email_message readTextFile at hm
  cases hT : fs.readText templatePath with
  | notFound => rw [hT] at hm; simp at hm
  | ioError => rw [hT] at hm; simp at hm
  | ok T =>
    rw [hT] at hm
    cases hA : attachImages fs images with
    | error e => rw [hA] at hm; cases e <;> simp at hm
    | ok parts =>
      rw [hA] at hm
      simp only [Except.ok.injEq] at hm
      have hm' : m = _ := hm.symm
      subst hm'
      exact ⟨T, parts, rfl, rfl, rfl, rfl, rfl, rfl, rfl⟩

/-! ## String-level helper lemmas for the substitution claims -/

/-- The two code passes with values "Ada" / "Engineer" compute the
spec-side simultaneous substitution. -/
theorem pyReplace_pair_eq_substSpec (T : String) :
    pyReplace (pyReplace T "\x7b\x7bname\x7d\x7d" "Ada") "\x7b\x7brole\x7d\x7d" "Engineer" =
      substSpec "Ada" "Engineer" T := by
  show (⟨engineerPass (adaPass T.data)⟩ : String) =
    ⟨substBothL "Ada".data "Engineer".data T.data⟩
  exact congrArg String.mk (seq_eq_simul T.data)

/-- A template containing neither token passes through both passes
verbatim. -/
theorem pyReplace_pair_id (T : String) (hn : hasSubstr nameTok T.data = false)
    (hr : hasSubstr roleTok T.data = false) :
    pyReplace (pyReplace T "\x7b\x7bname\x7d\x7d" "Ada") "\x7b\x7brole\x7d\x7d" "Engineer" = T := by
  have h1 : adaPass T.data = T.data :=
    replaceL_of_no_occurrence '\x7b' nameTl "Ada".data T.data hn
  have h2 : engineerPass T.data = T.data :=
    replaceL_of_no_occurrence '\x7b' roleTl "Engineer".data T.data hr
  show (⟨engineerPass (adaPass T.data)⟩ : String) = T
  rw [h1, h2]

/-! ## Claim C1 -/

/-- C1: for every recipient with name "Ada" and role "Engineer", the HTML
body built by create_email_message is the template with every literal
occurrence of the name placeholder replaced by "Ada" and every role
placeholder by "Engineer", all other text unchanged (the spec-side
simultaneous scan substSpec); in particular a template containing no
placeholder passes through verbatim, and the template
"Hello {{name}}, role: {{role}}" yields "Hello Ada, role: Engineer". -/
theorem create_email_message_ada_engineer_substitution
    (senderEmail e templatePath T : String) (fs : FS)
    (images : List (String × String)) (m : EmailMessage)
    (hT : fs.readText templatePath = .ok T)
    (hm : create_email_message senderEmail fs ⟨"Ada", "Engineer", e⟩ templatePath images = .ok m) :
    m.html = substSpec "Ada" "Engineer" T
    ∧ (hasSubstr nameTok T.data = false → hasSubstr roleTok T.data = false → m.html = T)
    ∧ (T = "Hello \x7b\x7bname\x7d\x7d, role: \x7b\x7brole\x7d\x7d" →
        m.html = "Hello Ada, role: Engineer") := by
  obtain ⟨T', parts, hT', hA, hfrom, hto, hsub, hhtml, hparts⟩ :=
    create_ok_elim senderEmail fs ⟨"Ada", "Engineer", e⟩ templatePath images m hm
  rw [hT] at hT'
  simp only [FileResult.ok.injEq] at hT'
  subst hT'
  refine ⟨?_, ?_, ?_⟩
  · rw [hhtml]
    exact pyReplace_pair_eq_substSpec T
  · intro hn hr
    rw [hhtml]
    exact pyReplace_pair_id T hn hr
  · intro hTeq
    subst hTeq
    rw [hhtml]
    show pyReplace
        (pyReplace "Hello \x7b\x7bname\x7d\x7d, role: \x7b\x7brole\x7d\x7d"
          "\x7b\x7bname\x7d\x7d" "Ada")
        "\x7b\x7brole\x7d\x7d" "Engineer" = "Hello Ada, role: Engineer"
    decide

/-- Concrete fixture: a file system holding only the scenario template. -/
def fsTpl : FS :=
  ⟨fun p => if p = "t.html" then
      .ok "Hello \x7b\x7bname\x7d\x7d, role: \x7b\x7brole\x7d\x7d" else .notFound,
   fun _ => .notFound⟩

/-- Concrete fixture: the message create_email_message builds from fsTpl
for the scenario recipient. -/
def msgAda : EmailMessage :=
  { fromAddr := "s@x", toAddr := "ada@x.com",
    subject := "Welcome Ada to Tinkering Lab!",
    html := pyReplace
      (pyReplace "Hello \x7b\x7bname\x7d\x7d, role: \x7b\x7brole\x7d\x7d"
        "\x7b\x7bname\x7d\x7d" "Ada")
      "\x7b\x7brole\x7d\x7d" "Engineer",
    imageParts := [] }

theorem create_email_message_ada_engineer_substitution_witness :
    fsTpl.readText "t.html" = .ok "Hello \x7b\x7bname\x7d\x7d, role: \x7b\x7brole\x7d\x7d"
    ∧ (create_email_message "s@x" fsTpl ⟨"Ada", "Engineer", "ada@x.com"⟩ "t.html" []).map
        EmailMessage.html = .ok "Hello Ada, role: Engineer" := by
  have hm : create_email_message "s@x" fsTpl ⟨"Ada", "Engineer", "ada@x.com"⟩ "t.html" [] =
      .ok msgAda := rfl
  have h := create_email_message_ada_engineer_substitution "s@x" "ada@x.com" "t.html"
    "Hello \x7b\x7bname\x7d\x7d, role: \x7b\x7brole\x7d\x7d" fsTpl [] msgAda rfl hm
  refine ⟨rfl, ?_⟩
  rw [hm]
  exact congrArg Except.ok (h.2.2 rfl)

/-! ## Claim C10 -/

/-- C10: every successfully built message carries From equal to the
configured sender address, To equal to the recipient's email, and Subject
equal to "Welcome " ++ name ++ " to Tinkering Lab!"; the right-hand sides
mention neither the file system, the template path nor the image map, so
the headers do not depend on template or image contents. -/
theorem create_email_message_fixed_headers
    (senderEmail : String) (fs : FS) (r : Recipient) (templatePath : String)
    (images : List (String × String)) (m : EmailMessage)
    (hm : create_email_message senderEmail fs r templatePath images = .ok m) :
    m.fromAddr = senderEmail ∧ m.toAddr = r.email ∧
      m.subject = "Welcome " ++ r.name ++ " to Tinkering Lab!" := by
  obtain ⟨T, parts, _, _, h1, h2, h3, _, _⟩ :=
    create_ok_elim senderEmail fs r templatePath images m hm
  exact ⟨h1, h2, h3⟩

theorem create_email_message_fixed_headers_witness :
    (create_email_message "s@x" fsTpl ⟨"Ada", "Engineer", "ada@x.com"⟩ "t.html" []).map
        (fun m => (m.fromAddr, m.toAddr, m.subject)) =
      .ok ("s@x", "ada@x.com", "Welcome Ada to Tinkering Lab!") := by
  have hm : create_email_message "s@x" fsTpl ⟨"Ada", "Engineer", "ada@x.com"⟩ "t.html" [] =
      .ok msgAda := rfl
  have h := create_email_message_fixed_headers "s@x" fsTpl ⟨"Ada", "Engineer", "ada@x.com"⟩
    "t.html" [] msgAda hm
  rw [hm]
  have hfields : (msgAda.fromAddr, msgAda.toAddr, msgAda.subject) =
      ("s@x", "ada@x.com", "Welcome Ada to Tinkering Lab!") := by
    rw [h.1, h.2.1, h.2.2]
    rfl
  exact congrArg Except.ok hfields

/-! ## Claim C4 -/

/-- The content identifier recovered from the header value the code writes
is exactly the map key. -/
theorem contentIdentifier_angle (imageId : String) (bs : List Nat) :
    contentIdentifier ⟨"<" ++ imageId ++ ">", bs⟩ = imageId := by
  show (⟨(imageId.data ++ ['>']).dropLast⟩ : String) = imageId
  rw [List.dropLast_concat]

/-- A successful attachImages pass builds one part per map entry, in dict
order, whose Content-ID header value is the bracketed map key. -/
theorem attachImages_ok_map (fs : FS) :
    ∀ (images : List (String × String)) (parts : List ImagePart),
      attachImages fs images = .ok parts →
      parts.map ImagePart.contentIdHeaderValue = images.map (fun q => "<" ++ q.1 ++ ">")
      ∧ parts.map contentIdentifier = images.map Prod.fst
      ∧ parts.length = images.length := by
  intro images
  induction images with
  | nil =>
    intro parts h
    simp only [attachImages, Except.ok.injEq] at h
    subst h
    exact ⟨rfl, rfl, rfl⟩
  | cons q rest ih =>
    obtain ⟨imageId, imagePath⟩ := q
    intro parts h
    unfold attachImages at h
    cases hb : readBinFile fs imagePath with
    | error e => rw [hb] at h; simp at h
    | ok bytes =>
      rw [hb] at h
      cases hA : attachImages fs rest with
      | error e => rw [hA] at h; simp at h
      | ok ps =>
        rw [hA] at h
        simp only [Except.ok.injEq] at h
        have h' : parts = _ := h.symm
        subst h'
        obtain ⟨h1, h2, h3⟩ := ih ps hA
        refine ⟨?_, ?_, ?_⟩
        · simp only [List.map_cons, h1]
        · simp only [List.map_cons, h2, contentIdentifier_angle]
        · simp only [List.length_cons, h3]

/-- C4: every successfully built message carries exactly one attached image
part per image-map entry, in map order; the part's Content-ID header value
is the map key wrapped in angle brackets, i.e. its content identifier (the
token referenced as cid:key from the HTML) equals the map key. -/
theorem create_email_message_attaches_one_part_per_image
    (senderEmail : String) (fs : FS) (r : Recipient) (templatePath : String)
    (images : List (String × String)) (m : EmailMessage)
    (hm : create_email_message senderEmail fs r templatePath images = .ok m) :
    m.imageParts.length = images.length
    ∧ m.imageParts.map ImagePart.contentIdHeaderValue = images.map (fun q => "<" ++ q.1 ++ ">")
    ∧ m.imageParts.map contentIdentifier = images.map Prod.fst := by
  obtain ⟨T, parts, _, hA, _, _, _, _, hparts⟩ :=
    create_ok_elim senderEmail fs r templatePath images m hm
  obtain ⟨h1, h2, h3⟩ := attachImages_ok_map fs images parts hA
  rw [hparts]
  exact ⟨h3, h1, h2⟩

/-- Concrete fixture: template plus a single image file a.png. -/
def fsLogo : FS :=
  ⟨fun p => if p = "t.html" then .ok "x" else .notFound,
   fun p => if p = "a.png" then .ok [137, 80, 78, 71] else .notFound⟩

/-- Concrete fixture: the message built from fsLogo with image map
[("logo", "a.png")]. -/
def msgLogo : EmailMessage :=
  { fromAddr := "s@x", toAddr := "a@x",
    subject := "Welcome A to Tinkering Lab!",
    html := pyReplace (pyReplace "x" "\x7b\x7bname\x7d\x7d" "A") "\x7b\x7brole\x7d\x7d" "E",
    imageParts := [{ contentIdHeaderValue := "<logo>", bytes := [137, 80, 78, 71] }] }

theorem create_email_message_attaches_one_part_per_image_witness :
    (create_email_message "s@x" fsLogo ⟨"A", "E", "a@x"⟩ "t.html"
        [("logo", "a.png")]).map (fun m => (m.imageParts.length, m.imageParts.map contentIdentifier)) =
      .ok (1, ["logo"]) := by
  have hm : create_email_message "s@x" fsLogo ⟨"A", "E", "a@x"⟩ "t.html" [("logo", "a.png")] =
      .ok msgLogo := rfl
  have h := create_email_message_attaches_one_part_per_image "s@x" fsLogo ⟨"A", "E", "a@x"⟩
    "t.html" [("logo", "a.png")] msgLogo hm
  rw [hm]
  have hfields : (msgLogo.imageParts.length, msgLogo.imageParts.map contentIdentifier) =
      (1, ["logo"]) := by
    rw [h.1, h.2.2]
    rfl
  exact congrArg Except.ok hfields

/-! ## Claim C9 -/

/-- Replacing the exact token string by v yields v. -/
theorem pyReplace_role_exact (v : String) :
    pyReplace "\x7b\x7brole\x7d\x7d" "\x7b\x7brole\x7d\x7d" v = v := by
  show (⟨replaceL '\x7b' roleTl v.data ('\x7b' :: roleTl)⟩ : String) = v
  rw [replaceL_cons_pos '\x7b' roleTl v.data '\x7b' roleTl (by decide), List.drop_length,
    replaceL_nil, List.append_nil]

/-- The name pass leaves the bare role token untouched whatever the
replacement value is. -/
theorem pyReplace_name_on_roleTok (v : String) :
    pyReplace "\x7b\x7brole\x7d\x7d" "\x7b\x7bname\x7d\x7d" v = "\x7b\x7brole\x7d\x7d" := by
  show (⟨replaceL '\x7b' nameTl v.data "\x7b\x7brole\x7d\x7d".data⟩ : String) = _
  rw [replaceL_of_no_occurrence '\x7b' nameTl v.data "\x7b\x7brole\x7d\x7d".data (by decide)]

/-- Replacing the exact name token string by v yields v, for every v. -/
theorem pyReplace_name_exact (v : String) :
    pyReplace "\x7b\x7bname\x7d\x7d" "\x7b\x7bname\x7d\x7d" v = v := by
  show (⟨replaceL '\x7b' nameTl v.data ('\x7b' :: nameTl)⟩ : String) = v
  rw [replaceL_cons_pos '\x7b' nameTl v.data '\x7b' nameTl (by decide), List.drop_length,
    replaceL_nil, List.append_nil]

/-- The replace scan walks straight through any block that contains no
occurrence of the pattern head character. -/
theorem replaceL_append_of_no_head (p : Char) (ps r : List Char) :
    ∀ s t : List Char, p ∉ s → replaceL p ps r (s ++ t) = s ++ replaceL p ps r t := by
  intro s
  induction s with
  | nil => intro t _; rfl
  | cons c cs ih =>
    intro t hp
    have hpc : (p == c) = false := by
      simp only [beq_eq_false_iff_ne]
      intro heq
      exact hp (by rw [heq]; exact List.mem_cons_self c cs)
    have hpref : (p :: ps).isPrefixOf (c :: (cs ++ t)) = false := by
      simp [List.isPrefixOf, hpc]
    have hrest : p ∉ cs := fun hmem => hp (List.mem_cons_of_mem c hmem)
    show replaceL p ps r (c :: (cs ++ t)) = _
    rw [replaceL_cons_neg p ps r c (cs ++ t) hpref, ih t hrest]
    rfl

/-- A role token at the head of the remaining input is consumed and
replaced by the value, for every value. -/
theorem replaceL_roleTok_ins (rv t : List Char) :
    replaceL '\x7b' roleTl rv (roleTok ++ t) = rv ++ replaceL '\x7b' roleTl rv t := by
  have hcond : roleTok.isPrefixOf ('\x7b' :: (roleTl ++ t)) = true := by
    simp only [List.isPrefixOf_iff_prefix]
    exact ⟨t, rfl⟩
  show replaceL '\x7b' roleTl rv ('\x7b' :: (roleTl ++ t)) = _
  rw [replaceL_cons_pos '\x7b' roleTl rv '\x7b' (roleTl ++ t) hcond, List.drop_left]

/-- The role pass on a string of the shape n1 ++ role-token ++ n2, with n1
free of the opening brace, replaces that occurrence by the value and
continues over n2. -/
theorem pyReplace_role_in_context (n₁ n₂ rv : String) (h : '\x7b' ∉ n₁.data) :
    pyReplace (n₁ ++ "\x7b\x7brole\x7d\x7d" ++ n₂) "\x7b\x7brole\x7d\x7d" rv =
      n₁ ++ rv ++ pyReplace n₂ "\x7b\x7brole\x7d\x7d" rv := by
  show (⟨replaceL '\x7b' roleTl rv.data ((n₁.data ++ roleTok) ++ n₂.data)⟩ : String) = _
  rw [List.append_assoc,
    replaceL_append_of_no_head '\x7b' roleTl rv.data n₁.data (roleTok ++ n₂.data) h,
    replaceL_roleTok_ins rv.data n₂.data]
  exact congrArg String.mk
    (List.append_assoc n₁.data rv.data (replaceL '\x7b' roleTl rv.data n₂.data)).symm

/-- C9: substitution is sequential — for every template, name and role
value the built HTML is the name pass followed by the role pass over the
intermediate result.  Consequently, for every recipient whose name value
contains the literal role token (name = n1 ++ role-token ++ n2 with n1
brace-free and n2 arbitrary), that occurrence inside the substituted name
is itself replaced by the role value in the final HTML (and n2's own
occurrences likewise); whereas for every role value containing the literal
name token (role = r1 ++ name-token ++ r2), the inserted role value —
its embedded name token included — survives into the final HTML as-is. -/
theorem placeholder_substitution_sequential_order :
    (∀ (senderEmail e templatePath : String) (fs : FS) (images : List (String × String))
        (name roleV T : String) (m : EmailMessage),
        fs.readText templatePath = .ok T →
        create_email_message senderEmail fs ⟨name, roleV, e⟩ templatePath images = .ok m →
        m.html = pyReplace (pyReplace T "\x7b\x7bname\x7d\x7d" name)
          "\x7b\x7brole\x7d\x7d" roleV)
    ∧ (∀ (senderEmail e templatePath : String) (fs : FS) (images : List (String × String))
        (n₁ n₂ roleV : String) (m : EmailMessage),
        '\x7b' ∉ n₁.data →
        fs.readText templatePath = .ok "\x7b\x7bname\x7d\x7d" →
        create_email_message senderEmail fs
          ⟨n₁ ++ "\x7b\x7brole\x7d\x7d" ++ n₂, roleV, e⟩ templatePath images = .ok m →
        m.html = n₁ ++ roleV ++ pyReplace n₂ "\x7b\x7brole\x7d\x7d" roleV)
    ∧ (∀ (senderEmail e templatePath : String) (fs : FS) (images : List (String × String))
        (nameV r₁ r₂ : String) (m : EmailMessage),
        fs.readText templatePath = .ok "\x7b\x7brole\x7d\x7d" →
        create_email_message senderEmail fs
          ⟨nameV, r₁ ++ "\x7b\x7bname\x7d\x7d" ++ r₂, e⟩ templatePath images = .ok m →
        m.html = r₁ ++ "\x7b\x7bname\x7d\x7d" ++ r₂) := by
  refine ⟨?_, ?_, ?_⟩
  · intro senderEmail e templatePath fs images name roleV T m hT hm
    obtain ⟨T', parts, hT', hA, _, _, _, hhtml, _⟩ :=
      create_ok_elim senderEmail fs ⟨name, roleV, e⟩ templatePath images m hm
    rw [hT] at hT'
    simp only [FileResult.ok.injEq] at hT'
    subst hT'
    rw [hhtml]
  · intro senderEmail e templatePath fs images n₁ n₂ roleV m hfree hT hm
    obtain ⟨T', parts, hT', hA, _, _, _, hhtml, _⟩ :=
      create_ok_elim senderEmail fs ⟨n₁ ++ "\x7b\x7brole\x7d\x7d" ++ n₂, roleV, e⟩
        templatePath images m hm
    rw [hT] at hT'
    simp only [FileResult.ok.injEq] at hT'
    subst hT'
    rw [hhtml]
    show pyReplace (pyReplace "\x7b\x7bname\x7d\x7d" "\x7b\x7bname\x7d\x7d"
        (n₁ ++ "\x7b\x7brole\x7d\x7d" ++ n₂)) "\x7b\x7brole\x7d\x7d" roleV =
      n₁ ++ roleV ++ pyReplace n₂ "\x7b\x7brole\x7d\x7d" roleV
    rw [pyReplace_name_exact, pyReplace_role_in_context n₁ n₂ roleV hfree]
  · intro senderEmail e templatePath fs images nameV r₁ r₂ m hT hm
    obtain ⟨T', parts, hT', hA, _, _, _, hhtml, _⟩ :=
      create_ok_elim senderEmail fs ⟨nameV, r₁ ++ "\x7b\x7bname\x7d\x7d" ++ r₂, e⟩
        templatePath images m hm
    rw [hT] at hT'
    simp only [FileResult.ok.injEq] at hT'
    subst hT'
    rw [hhtml]
    show pyReplace (pyReplace "\x7b\x7brole\x7d\x7d" "\x7b\x7bname\x7d\x7d" nameV)
        "\x7b\x7brole\x7d\x7d" (r₁ ++ "\x7b\x7bname\x7d\x7d" ++ r₂) =
      r₁ ++ "\x7b\x7bname\x7d\x7d" ++ r₂
    rw [pyReplace_name_on_roleTok nameV, pyReplace_role_exact]

/-- Concrete fixture: a template that is exactly the name token. -/
def fsNameTok : FS :=
  ⟨fun p => if p = "t.html" then .ok "\x7b\x7bname\x7d\x7d" else .notFound,
   fun _ => .notFound⟩

/-- Concrete fixture: a template that is exactly the role token. -/
def fsRoleTok : FS :=
  ⟨fun p => if p = "t.html" then .ok "\x7b\x7brole\x7d\x7d" else .notFound,
   fun _ => .notFound⟩

theorem placeholder_substitution_sequential_order_witness :
    (create_email_message "s@x" fsNameTok ⟨"Dr. \x7b\x7brole\x7d\x7d", "Boss", "a@x"⟩
        "t.html" []).map EmailMessage.html = .ok "Dr. Boss"
    ∧ (create_email_message "s@x" fsRoleTok ⟨"X", "see \x7b\x7bname\x7d\x7d!", "a@x"⟩
        "t.html" []).map EmailMessage.html = .ok "see \x7b\x7bname\x7d\x7d!" := by
  have h := placeholder_substitution_sequential_order
  constructor
  · have hm : create_email_message "s@x" fsNameTok
        ⟨"Dr. " ++ "\x7b\x7brole\x7d\x7d" ++ "", "Boss", "a@x"⟩ "t.html" [] = .ok
        { fromAddr := "s@x", toAddr := "a@x",
          subject := "Welcome " ++ ("Dr. " ++ "\x7b\x7brole\x7d\x7d" ++ "") ++
            " to Tinkering Lab!",
          html := pyReplace
            (pyReplace "\x7b\x7bname\x7d\x7d" "\x7b\x7bname\x7d\x7d"
              ("Dr. " ++ "\x7b\x7brole\x7d\x7d" ++ ""))
            "\x7b\x7brole\x7d\x7d" "Boss",
          imageParts := [] } := rfl
    have hc := h.2.1 "s@x" "a@x" "t.html" fsNameTok [] "Dr. " "" "Boss" _ (by decide) rfl hm
    rw [show create_email_message "s@x" fsNameTok
        ⟨"Dr. \x7b\x7brole\x7d\x7d", "Boss", "a@x"⟩ "t.html" [] = _ from hm]
    refine congrArg Except.ok ?_
    rw [hc]
    decide
  · have hm : create_email_message "s@x" fsRoleTok
        ⟨"X", "see " ++ "\x7b\x7bname\x7d\x7d" ++ "!", "a@x"⟩ "t.html" [] = .ok
        { fromAddr := "s@x", toAddr := "a@x",
          subject := "Welcome X to Tinkering Lab!",
          html := pyReplace
            (pyReplace "\x7b\x7brole\x7d\x7d" "\x7b\x7bname\x7d\x7d" "X")
            "\x7b\x7brole\x7d\x7d" ("see " ++ "\x7b\x7bname\x7d\x7d" ++ "!"),
          imageParts := [] } := rfl
    have hc := h.2.2 "s@x" "a@x" "t.html" fsRoleTok [] "X" "see " "!" _ rfl hm
    rw [show create_email_message "s@x" fsRoleTok
        ⟨"X", "see \x7b\x7bname\x7d\x7d!", "a@x"⟩ "t.html" [] = _ from hm]
    refine congrArg Except.ok ?_
    rw [hc]
    decide

/-! ## Claim C3 -/

/-- C3: send_email returns True exactly when the message was built and the
transport session confirmed transmission; every build or transport error —
in particular a missing template file — yields False.  (send_email is a
total function into Bool: in the code the except clause catches every
exception, so nothing propagates past its boundary.) -/
theorem send_email_true_iff_transmission_confirmed
    (senderEmail : String) (fs : FS) (transport : SmtpOutcome) (r : Recipient)
    (templatePath : String) (images : List (String × String)) :
    ((send_email senderEmail fs transport r templatePath images).1 = true ↔
      (∃ m, create_email_message senderEmail fs r templatePath images = .ok m) ∧
        transport = .ok)
    ∧ (fs.readText templatePath = .notFound →
        (send_email senderEmail fs transport r templatePath images).1 = false) := by
  constructor
  · unfold send_email
    cases hc : create_email_message senderEmail fs r templatePath images with
    | error e => simp
    | ok msg => cases transport <;> simp [runSmtpSession]
  · intro hnf
    have hbuild : create_email_message senderEmail fs r templatePath images =
        .error ⟨.fileNotFound templatePath, "Template file not found: " ++ templatePath⟩ := by
      unfold create_email_message readTextFile
      rw [hnf]
    unfold send_email
    rw [hbuild]

/-- Concrete fixture: an empty file system (no template, no images). -/
def fsEmpty : FS := ⟨fun _ => .notFound, fun _ => .notFound⟩

theorem send_email_true_iff_transmission_confirmed_witness :
    (send_email "s@x" fsEmpty .ok ⟨"A", "E", "a@x"⟩ "t.html" []).1 = false
    ∧ (send_email "s@x" fsTpl .ok ⟨"Ada", "Engineer", "ada@x.com"⟩ "t.html" []).1 = true := by
  constructor
  · exact (send_email_true_iff_transmission_confirmed "s@x" fsEmpty .ok ⟨"A", "E", "a@x"⟩
      "t.html" []).2 rfl
  · exact (send_email_true_iff_transmission_confirmed "s@x" fsTpl .ok
      ⟨"Ada", "Engineer", "ada@x.com"⟩ "t.html" []).1.mpr ⟨⟨msgAda, rfl⟩, rfl⟩

/-! ## Claim C8 -/

/-- C8: the connection-event trace of every send_email call is balanced:
either no connection was opened (build failure, or the SMTP constructor
itself failed before a connection existed) or exactly one connection was
opened and then closed before returning — on success and on every failure
path alike.  No connection remains open after send_email returns. -/
theorem send_email_smtp_session_always_closed
    (senderEmail : String) (fs : FS) (transport : SmtpOutcome) (r : Recipient)
    (templatePath : String) (images : List (String × String)) :
    ((send_email senderEmail fs transport r templatePath images).2.count SmtpEvent.opened =
      (send_email senderEmail fs transport r templatePath images).2.count SmtpEvent.closed)
    ∧ ((send_email senderEmail fs transport r templatePath images).2 = [] ∨
        (send_email senderEmail fs transport r templatePath images).2 =
          [SmtpEvent.opened, SmtpEvent.closed]) := by
  unfold send_email
  cases hc : create_email_message senderEmail fs r templatePath images with
  | error e => exact ⟨rfl, Or.inl rfl⟩
  | ok msg =>
    cases transport
    · exact ⟨rfl, Or.inr rfl⟩
    · exact ⟨rfl, Or.inl rfl⟩
    · exact ⟨rfl, Or.inr rfl⟩
    · exact ⟨rfl, Or.inr rfl⟩
    · exact ⟨rfl, Or.inr rfl⟩

/-! ## Bulk send accounting (claims C2 and C7) -/

/-- The per-recipient observations of the bulk loop, independent of one
another: each recipient's email paired with the outcome of its own single
send_email call (the i-th recipient uses the i-th session outcome). -/
def outcomesFrom (senderEmail : String) (fs : FS) (net : Nat → SmtpOutcome)
    (templatePath : String) (images : List (String × String)) :
    Nat → List Recipient → List (String × Bool)
  | _, [] => []
  | i, r :: rest =>
    (r.email, (send_email senderEmail fs (net i) r templatePath images).1) ::
      outcomesFrom senderEmail fs net templatePath images (i + 1) rest

/-- The bulk loop is exactly the per-recipient partition of outcomesFrom:
success collects the emails whose own send returned True, failed collects
the rest, both in recipient-iteration order, and the loop performs exactly
one send_email call per recipient. -/
theorem send_bulk_go_spec (senderEmail : String) (fs : FS) (net : Nat → SmtpOutcome)
    (templatePath : String) (images : List (String × String)) :
    ∀ (recipients : List Recipient) (i : Nat),
      send_bulk_go senderEmail fs net templatePath images i recipients =
        ({ success := (outcomesFrom senderEmail fs net templatePath images i recipients).filterMap
              (fun q => if q.2 then some q.1 else none),
           failed := (outcomesFrom senderEmail fs net templatePath images i recipients).filterMap
              (fun q => if q.2 then none else some q.1) },
         recipients.length) := by
  intro recipients
  induction recipients with
  | nil => intro i; rfl
  | cons r rest ih =>
    intro i
    simp only [send_bulk_go, outcomesFrom, List.filterMap_cons, ih (i + 1), List.length_cons]
    by_cases hs : (send_email senderEmail fs (net i) r templatePath images).1
    · simp [hs]
    · simp [hs]

theorem filterMap_partition_length (l : List (String × Bool)) :
    (l.filterMap (fun q => if q.2 then some q.1 else none)).length +
      (l.filterMap (fun q => if q.2 then none else some q.1)).length = l.length := by
  induction l with
  | nil => rfl
  | cons q rest ih =>
    obtain ⟨a, b⟩ := q
    cases b <;> simp [List.filterMap_cons] <;> omega

theorem mem_map_fst_of_mem_pos (l : List (String × Bool)) (e : String)
    (h : e ∈ l.filterMap (fun q => if q.2 then some q.1 else none)) : e ∈ l.map Prod.fst := by
  induction l with
  | nil => simp at h
  | cons q rest ih =>
    obtain ⟨a, b⟩ := q
    cases b with
    | true =>
      simp only [List.filterMap_cons, if_true] at h
      rcases List.mem_cons.mp h with h1 | h1
      · simp [h1]
      · simp [ih h1]
    | false =>
      simp only [List.filterMap_cons, if_false] at h
      simp [ih h]

theorem mem_map_fst_of_mem_neg (l : List (String × Bool)) (e : String)
    (h : e ∈ l.filterMap (fun q => if q.2 then none else some q.1)) : e ∈ l.map Prod.fst := by
  induction l with
  | nil => simp at h
  | cons q rest ih =>
    obtain ⟨a, b⟩ := q
    cases b with
    | true =>
      simp only [List.filterMap_cons, if_true] at h
      simp [ih h]
    | false =>
      simp only [List.filterMap_cons, if_false] at h
      rcases List.mem_cons.mp h with h1 | h1
      · simp [h1]
      · simp [ih h1]

theorem filterMap_partition_disjoint (l : List (String × Bool))
    (hnd : (l.map Prod.fst).Nodup) (e : String)
    (hpos : e ∈ l.filterMap (fun q => if q.2 then some q.1 else none))
    (hneg : e ∈ l.filterMap (fun q => if q.2 then none else some q.1)) : False := by
  induction l with
  | nil => simp at hpos
  | cons q rest ih =>
    obtain ⟨a, b⟩ := q
    simp only [List.map_cons, List.nodup_cons] at hnd
    cases b with
    | true =>
      simp only [List.filterMap_cons, if_true] at hpos hneg
      rcases List.mem_cons.mp hpos with h1 | h1
      · exact hnd.1 (h1 ▸ mem_map_fst_of_mem_neg rest e hneg)
      · exact ih hnd.2 h1 hneg
    | false =>
      simp only [List.filterMap_cons, if_false] at hpos hneg
      rcases List.mem_cons.mp hneg with h1 | h1
      · exact hnd.1 (h1 ▸ mem_map_fst_of_mem_pos rest e hpos)
      · exact ih hnd.2 hpos h1

theorem outcomesFrom_map_fst (senderEmail : String) (fs : FS) (net : Nat → SmtpOutcome)
    (templatePath : String) (images : List (String × String)) :
    ∀ (recipients : List Recipient) (i : Nat),
      (outcomesFrom senderEmail fs net templatePath images i recipients).map Prod.fst =
        recipients.map Recipient.email := by
  intro recipients
  induction recipients with
  | nil => intro i; rfl
  | cons r rest ih =>
    intro i
    simp only [outcomesFrom, List.map_cons, ih (i + 1)]

/-! ## Claim C2 (corrected) -/

/-- Concrete fixture: the session outcome chosen by the environment in the
two-recipient scenarios — the first session succeeds, the second fails at
SMTP login. -/
def netFirstOkThenLoginFail : Nat → SmtpOutcome :=
  fun i => if i = 0 then .ok else .loginFail

/-- Concrete fixture: the claim-refuting recipient list — two entries
sharing one address. -/
def dupRecipients : List Recipient := [⟨"A", "E", "dup@x"⟩, ⟨"B", "E", "dup@x"⟩]

/-- C2 counterexample: the spec records no uniqueness invariant for
recipients, and with two recipient entries sharing the address dup@x —
the first send succeeding, the second failing at SMTP login — the code
appends the same address to success AND to failed, so "no recipient
appearing in both lists" is false for arbitrary recipient lists. -/
theorem duplicate_email_in_both_lists_counterexample :
    "dup@x" ∈ (send_bulk_emails "s@x" fsTpl netFirstOkThenLoginFail
        dupRecipients "t.html" []).1.success
    ∧ "dup@x" ∈ (send_bulk_emails "s@x" fsTpl netFirstOkThenLoginFail
        dupRecipients "t.html" []).1.failed := by
  decide

/-- C2 amended: for every recipient list the success and failed lists of
send_bulk_emails have combined length exactly the number of recipients,
and each recipient ENTRY is recorded in exactly one of the two lists —
success holds, in recipient-iteration order, the emails of the recipients
whose own send returned True, failed the others (the partition of
outcomesFrom).  When recipient emails are pairwise distinct no address
lands in both lists; with duplicated emails the same address can appear in
both, once per entry.  On the empty recipient list the result is two empty
lists with zero send_email calls. -/
theorem send_bulk_emails_partitions_recipients
    (senderEmail : String) (fs : FS) (net : Nat → SmtpOutcome)
    (recipients : List Recipient) (templatePath : String)
    (images : List (String × String)) :
    ((send_bulk_emails senderEmail fs net recipients templatePath images).1.success.length +
      (send_bulk_emails senderEmail fs net recipients templatePath images).1.failed.length =
      recipients.length)
    ∧ ((send_bulk_emails senderEmail fs net recipients templatePath images).1.success =
        (outcomesFrom senderEmail fs net templatePath images 0 recipients).filterMap
          (fun q => if q.2 then some q.1 else none)
      ∧ (send_bulk_emails senderEmail fs net recipients templatePath images).1.failed =
        (outcomesFrom senderEmail fs net templatePath images 0 recipients).filterMap
          (fun q => if q.2 then none else some q.1))
    ∧ ((recipients.map Recipient.email).Nodup →
        ∀ e, e ∈ (send_bulk_emails senderEmail fs net recipients templatePath images).1.success →
          e ∈ (send_bulk_emails senderEmail fs net recipients templatePath images).1.failed →
          False)
    ∧ send_bulk_emails senderEmail fs net [] templatePath images =
        ({ success := [], failed := [] }, 0) := by
  have hspec := send_bulk_go_spec senderEmail fs net templatePath images recipients 0
  refine ⟨?_, ⟨?_, ?_⟩, ?_, rfl⟩
  · unfold send_bulk_emails
    rw [hspec]
    have hlen := filterMap_partition_length
      (outcomesFrom senderEmail fs net templatePath images 0 recipients)
    have hfst := outcomesFrom_map_fst senderEmail fs net templatePath images recipients 0
    have : (outcomesFrom senderEmail fs net templatePath images 0 recipients).length =
        recipients.length := by
      have := congrArg List.length hfst
      simpa using this
    simpa [this] using hlen
  · unfold send_bulk_emails
    rw [hspec]
  · unfold send_bulk_emails
    rw [hspec]
  · intro hnd e hpos hneg
    unfold send_bulk_emails at hpos hneg
    rw [hspec] at hpos hneg
    refine filterMap_partition_disjoint
      (outcomesFrom senderEmail fs net templatePath images 0 recipients) ?_ e hpos hneg
    rw [outcomesFrom_map_fst]
    exact hnd

theorem send_bulk_emails_partitions_recipients_witness :
    ((send_bulk_emails "s@x" fsTpl netFirstOkThenLoginFail
        [⟨"A", "E", "a1@x"⟩, ⟨"B", "E", "a2@x"⟩] "t.html" []).1.success.length +
      (send_bulk_emails "s@x" fsTpl netFirstOkThenLoginFail
        [⟨"A", "E", "a1@x"⟩, ⟨"B", "E", "a2@x"⟩] "t.html" []).1.failed.length = 2)
    ∧ ¬ ("a1@x" ∈ (send_bulk_emails "s@x" fsTpl netFirstOkThenLoginFail
        [⟨"A", "E", "a1@x"⟩, ⟨"B", "E", "a2@x"⟩] "t.html" []).1.failed) := by
  have h := send_bulk_emails_partitions_recipients "s@x" fsTpl netFirstOkThenLoginFail
    [⟨"A", "E", "a1@x"⟩, ⟨"B", "E", "a2@x"⟩] "t.html" []
  refine ⟨h.1, fun hmem => h.2.2.1 (by decide) "a1@x" (by decide) hmem⟩

/-! ## Claim C7 -/

/-- C7: the bulk loop never terminates early — its result is exactly the
independent per-recipient partition (recipient i's entry depends only on
recipient i's own send, so an earlier failure cannot block later sends)
and it performs exactly one send_email call per recipient; in the
two-recipient scenario where the first send succeeds and the second fails
at SMTP login the result is success = [addr1], failed = [addr2]. -/
theorem send_bulk_no_early_termination
    (senderEmail : String) (fs : FS) (net : Nat → SmtpOutcome)
    (recipients : List Recipient) (templatePath : String)
    (images : List (String × String)) :
    (send_bulk_emails senderEmail fs net recipients templatePath images =
      ({ success := (outcomesFrom senderEmail fs net templatePath images 0 recipients).filterMap
            (fun q => if q.2 then some q.1 else none),
         failed := (outcomesFrom senderEmail fs net templatePath images 0 recipients).filterMap
            (fun q => if q.2 then none else some q.1) },
       recipients.length))
    ∧ send_bulk_emails "s@x" fsTpl netFirstOkThenLoginFail
        [⟨"A", "E", "a1@x"⟩, ⟨"B", "E", "a2@x"⟩] "t.html" [] =
      ({ success := ["a1@x"], failed := ["a2@x"] }, 2) := by
  exact ⟨send_bulk_go_spec senderEmail fs net templatePath images recipients 0, by decide⟩

/-! ## Claim C5 (corrected) -/

/-- C5 counterexample: with EMAIL_SENDER set to the empty string and
EMAIL_PASSWORD set to "pw" both variables are present in the environment,
yet construction fails with the configuration error — the code checks
Python truthiness via all([...]) and the empty string is falsy, so
"construction succeeds when both are present" is false as stated. -/
theorem mailer_construction_present_but_empty_counterexample :
    (Env.mk none none (some "") (some "pw")).emailSender.isSome = true
    ∧ (Env.mk none none (some "") (some "pw")).emailPassword.isSome = true
    ∧ CIDEmailSender_mk ⟨none, none, some "", some "pw"⟩ = .error .missingEnvVars :=
  ⟨rfl, rfl, rfl⟩

/-- C5 amended: provided int(SMTP_PORT) succeeds (as it does for the
default "587"), construction fails immediately with the configuration
error naming the required variables whenever EMAIL_SENDER or
EMAIL_PASSWORD is unset or set to the empty string, and succeeds whenever
both are set to non-empty values.  Construction involves no transport
value at all, so no send attempt or network activity can precede the
error. -/
theorem mailer_construction_requires_nonempty_credentials
    (env : Env) (port : Int)
    (hport : pyInt (env.smtpPort.getD "587") = some port) :
    ((env.emailSender = none ∨ env.emailSender = some "" ∨
      env.emailPassword = none ∨ env.emailPassword = some "") →
      CIDEmailSender_mk env = .error .missingEnvVars)
    ∧ (∀ s p, env.emailSender = some s → s ≠ "" → env.emailPassword = some p → p ≠ "" →
        CIDEmailSender_mk env = .ok
          { smtpServer := env.smtpServer.getD "smtp.gmail.com", smtpPort := port,
            senderEmail := s, senderPassword := p }) := by
  constructor
  · intro hcase
    have hfalse : (truthy env.emailSender && truthy env.emailPassword) = false := by
      rcases hcase with h | h | h | h <;> rw [h] <;> simp [truthy]
    unfold CIDEmailSender_mk
    simp [hport, hfalse]
  · intro s p hs hs0 hp hp0
    unfold CIDEmailSender_mk
    simp [hport, hs, hp, truthy, hs0, hp0]

theorem mailer_construction_requires_nonempty_credentials_witness :
    CIDEmailSender_mk ⟨none, none, none, some "pw"⟩ = .error .missingEnvVars
    ∧ CIDEmailSender_mk ⟨none, none, some "a@x", some "pw"⟩ =
        .ok ⟨"smtp.gmail.com", 587, "a@x", "pw"⟩ := by
  constructor
  · exact (mailer_construction_requires_nonempty_credentials
      ⟨none, none, none, some "pw"⟩ 587 rfl).1 (Or.inl rfl)
  · exact (mailer_construction_requires_nonempty_credentials
      ⟨none, none, some "a@x", some "pw"⟩ 587 rfl).2 "a@x" "pw" rfl (by decide) rfl (by decide)

/-! ## Claim C6 (corrected) -/

/-- Concrete fixture: the template resolves but the single image file does
not exist. -/
def fsMissingImage : FS :=
  ⟨fun p => if p = "t.html" then .ok "x" else .notFound,
   fun _ => .notFound⟩

/-- C6 counterexample: the template path resolves (readText succeeds), the
failing component is the image file — an underlying I/O fault other than
"template path does not resolve" — yet the code signals the
template-not-found error, logging "Template file not found: t.html",
because the single except FileNotFoundError clause also catches the
FileNotFoundError raised while opening an image.  The claim expects a
generic "construction failed" signal here. -/
theorem missing_image_signals_template_not_found_counterexample :
    fsMissingImage.readText "t.html" = .ok "x"
    ∧ create_email_message "s@x" fsMissingImage ⟨"A", "E", "a@x"⟩ "t.html"
        [("logo", "a.png")] =
      .error ⟨.fileNotFound "a.png", "Template file not found: t.html"⟩ :=
  ⟨rfl, rfl⟩

/-- C6 amended: create_email_message signals the "template not found"
error (log line "Template file not found: path-of-template") exactly when
the underlying exception is a FileNotFoundError — whether raised for the
template path or for an image path — and signals the generic
"construction failed" error ("Error creating email message: ...") wrapping
the fault for every other I/O error (e.g. an existing but unreadable image
file).  In particular a non-resolving template path yields the
template-not-found signal. -/
theorem create_email_message_error_classification
    (senderEmail : String) (fs : FS) (r : Recipient) (templatePath : String)
    (images : List (String × String)) :
    (fs.readText templatePath = .notFound →
      create_email_message senderEmail fs r templatePath images =
        .error ⟨.fileNotFound templatePath, "Template file not found: " ++ templatePath⟩)
    ∧ (∀ e, create_email_message senderEmail fs r templatePath images = .error e →
        ((∃ p, e.exc = .fileNotFound p) ∧
          e.log = "Template file not found: " ++ templatePath) ∨
        ((∃ p, e.exc = .ioError p) ∧
          ∃ p, e.log = "Error creating email message: " ++ p)) := by
  constructor
  · intro hnf
    unfold create_email_message readTextFile
    rw [hnf]
  · intro e he
    unfold create_email_message readTextFile at he
    cases hT : fs.readText templatePath with
    | notFound =>
      rw [hT] at he
      simp only [Except.error.injEq] at he
      subst he
      exact Or.inl ⟨⟨templatePath, rfl⟩, rfl⟩
    | ioError =>
      rw [hT] at he
      simp only [Except.error.injEq] at he
      subst he
      exact Or.inr ⟨⟨templatePath, rfl⟩, templatePath, rfl⟩
    | ok T =>
      rw [hT] at he
      cases hA : attachImages fs images with
      | ok parts => rw [hA] at he; simp at he
      | error ex =>
        rw [hA] at he
        cases ex with
        | fileNotFound p =>
          simp only [Except.error.injEq] at he
          subst he
          exact Or.inl ⟨⟨p, rfl⟩, rfl⟩
        | ioError p =>
          simp only [Except.error.injEq] at he
          subst he
          exact Or.inr ⟨⟨p, rfl⟩, p, rfl⟩

/-- Concrete fixture: the template exists but the image file exists and is
unreadable (permission-style OSError, not FileNotFoundError). -/
def fsUnreadableImage : FS :=
  ⟨fun p => if p = "t.html" then .ok "x" else .notFound,
   fun _ => .ioError⟩

theorem create_email_message_error_classification_witness :
    (create_email_message "s@x" fsEmpty ⟨"A", "E", "a@x"⟩ "t.html" [] =
      .error ⟨.fileNotFound "t.html", "Template file not found: t.html"⟩)
    ∧ (((∃ p, (BuildFailure.mk (.ioError "a.png")
          "Error creating email message: a.png").exc = .fileNotFound p) ∧
        (BuildFailure.mk (.ioError "a.png") "Error creating email message: a.png").log =
          "Template file not found: " ++ "t.html") ∨
      ((∃ p, (BuildFailure.mk (.ioError "a.png")
          "Error creating email message: a.png").exc = .ioError p) ∧
        ∃ p, (BuildFailure.mk (.ioError "a.png")
          "Error creating email message: a.png").log =
            "Error creating email message: " ++ p)) := by
  constructor
  · exact (create_email_message_error_classification "s@x" fsEmpty ⟨"A", "E", "a@x"⟩
      "t.html" []).1 rfl
  · exact (create_email_message_error_classification "s@x" fsUnreadableImage ⟨"A", "E", "a@x"⟩
      "t.html" [("logo", "a.png")]).2
      ⟨.ioError "a.png", "Error creating email message: a.png"⟩ rfl

end EmailAutomation
